import Mathlib

/-!
# Verification of the aimemorybox chat persistence / sync / encryption layer

Shallow embedding of the persistence and synchronization layer of the
aimemorybox repository:

* `src/lib/chat-persistence.ts` — local chat store, debounced DSN save,
  periodic sweep, CID side table, delete;
* `src/lib/error-handling.ts`   — `withRetry` / `retryDSNOperation`;
* `src/lib/encryption.ts`       — password-based AES-GCM wrapper
  (`encrypt` / `decrypt` / `generatePasswordFromAddress`);
* the unnamed module holding `deriveKey` / `encryptData` / `decryptData`
  (address-keyed AES-GCM, IV-prefixed blob);
* the unnamed module holding `loadMessages` (memory storage).

Modelling conventions:

* `localStorage` is modelled as a typed `Store` record; writes are assumed
  to succeed (quota failures are caught-and-ignored no-ops in the source and
  none of the verified claims is about them).  For the one claim about raw
  storage content (`getLocalChats` on arbitrary content) a separate model at
  the JSON-value level is used.
* JavaScript truthiness on strings (`!cid`, `a || b`) is modelled explicitly:
  `none` and `some ""` are falsy.
* AES-GCM with a PBKDF2-derived key is modelled symbolically (an idealized
  authenticated encryption scheme): a ciphertext records the key material,
  IV and plaintext it was produced from, and decryption succeeds exactly
  when the same key material (and IV) is supplied.  PBKDF2 is idealized as
  injective on its input string, so the key is represented by the key
  material string itself.
* `JSON.stringify` / `JSON.parse` for message lists is passed as an explicit
  codec parameter where it matters, with its round-trip property as a
  hypothesis (it is behavior of the host JSON library, not of this repo).
* `setTimeout` debounce timers are modelled as a map from chat id to the
  armed callback's captured arguments; firing a timer disarms it.
-/

namespace AiMemoryBox

/-! ## Data model (`src/lib/chat-persistence.ts`, interfaces `ChatMessage`,
`ChatSession`).  `metadata` values are abstracted to strings (the source type
is `Record<string, any>`; no verified claim inspects them). -/

inductive Role where
  | user
  | assistant
  | system
deriving DecidableEq, Repr

structure ChatMessage where
  id : String
  role : Role
  content : String
  timestamp : Nat
  metadata : Option (List (String × String)) := none
deriving DecidableEq, Repr

structure ChatSession where
  id : String
  title : String
  messages : List ChatMessage
  createdAt : Nat
  updatedAt : Nat
  address : Option String := none
  cid : Option String := none
deriving DecidableEq, Repr

/-- JavaScript string truthiness: `undefined`/`null` and `""` are falsy.
Used to model `!chat.cid`, `!cid`, `!data`, `mappings[id] || null`, … -/
def jsFalsy : Option String → Bool
  | none => true
  | some s => s = ""

/-- JavaScript `a || b` on (possibly absent) strings. -/
def jsOr (a b : Option String) : Option String :=
  if jsFalsy a then b else a

/-- Constant `AUTO_SAVE_CONFIG` from `chat-persistence.ts`. -/
structure AutoSaveConfig where
  enabled : Bool
  debounceMs : Nat
  syncIntervalMs : Nat

def AUTO_SAVE_CONFIG : AutoSaveConfig :=
  { enabled := true, debounceMs := 5000, syncIntervalMs := 60000 }

/-- The arguments captured by the debounce callback
`() => saveChatToDSN(chat.id, chat.address)`; the chat id is the map key. -/
structure SaveTimer where
  address : Option String
deriving DecidableEq, Repr

/-- The typed model of the browser-local state used by
`chat-persistence.ts`: the chats collection (`ai_memory_box_chats`), the CID
side table (`ai_memory_box_cid_map`), the last-sync timestamp
(`ai_memory_box_last_sync`) and the module-level `saveTimers` map. -/
structure Store where
  chats : List ChatSession
  cidMap : String → Option String
  lastSync : Option Nat
  timers : String → Option SaveTimer

/-- Function `getLocalChats` on the typed store (reads the chats collection). -/
def getLocalChats (s : Store) : List ChatSession :=
  s.chats

/-- Function `saveLocalChats` on the typed store. -/
def saveLocalChats (chats : List ChatSession) (s : Store) : Store :=
  { s with chats := chats }

/-- Function `getChatById`: `chats.find((chat) => chat.id === chatId) || null`. -/
def getChatById (chatId : String) (s : Store) : Option ChatSession :=
  (getLocalChats s).find? (fun chat => chat.id = chatId)

/-- Function `saveChat(chat, autoSaveToDSN)`: upsert by id with `updatedAt := now`,
then (when auto-save is on) clear any armed debounce timer for the id and
arm a fresh one capturing `chat.id` and `chat.address`. -/
def saveChat (chat : ChatSession) (autoSaveToDSN : Bool) (now : Nat)
    (s : Store) : Store :=
  let chats := getLocalChats s
  let updatedChat := { chat with updatedAt := now }
  let chats' :=
    match chats.findIdx? (fun c => c.id = chat.id) with
    | some index => chats.set index updatedChat
    | none => chats ++ [updatedChat]
  let s1 := saveLocalChats chats' s
  if autoSaveToDSN && AUTO_SAVE_CONFIG.enabled then
    { s1 with
      timers := fun k =>
        if k = chat.id then some ⟨chat.address⟩ else s1.timers k }
  else s1

/-- Metadata envelope passed to `uploadToAutoDrive`. -/
structure UploadMetadata where
  address : Option String
  timestamp : Nat
  messageCount : Nat
deriving DecidableEq, Repr

/-- One call to `uploadToAutoDrive(data, metadata)` made on behalf of a chat
(the attempt is recorded whether or not the upload succeeds). -/
structure UploadAttempt where
  chatId : String
  data : String
  metadata : UploadMetadata
deriving DecidableEq, Repr

/-- External collaborators of the sync layer: `JSON.stringify` on a session
and the AutoDrive upload call (`null` result = failure). -/
structure DSNEnv where
  stringify : ChatSession → String
  upload : String → UploadMetadata → Option String

/-- Function `storeCIDMapping(chatId, cid)`: `mappings[chatId] = cid` on the CID side
table. -/
def storeCIDMapping (chatId cid : String) (s : Store) : Store :=
  { s with cidMap := fun k => if k = chatId then some cid else s.cidMap k }

/-- Function `getCIDForChat(chatId)`: `mappings[chatId] || null`. -/
def getCIDForChat (chatId : String) (s : Store) : Option String :=
  let looked := s.cidMap chatId
  if jsFalsy looked then none else looked

/-- Function `saveChatToDSN(chatId, address)`.  Returns the new store, the result
(`some cid` on success, `none` when any step threw — the `catch` branch),
and the list of upload attempts made (`[]` or one element). -/
def saveChatToDSN (env : DSNEnv) (now : Nat) (chatId : String)
    (address : Option String) (s : Store) :
    Store × Option String × List UploadAttempt :=
  match getChatById chatId s with
  | none => (s, none, [])          -- throw 'Chat not found', caught
  | some chat =>
    let data := env.stringify chat
    let metadata : UploadMetadata :=
      { address := jsOr address chat.address
        timestamp := now
        messageCount := chat.messages.length }
    let attempt : UploadAttempt :=
      { chatId := chatId, data := data, metadata := metadata }
    let cid? := env.upload data metadata
    if jsFalsy cid? then
      (s, none, [attempt])         -- throw 'Failed to upload to DSN', caught
    else
      match cid? with
      | none => (s, none, [attempt])   -- unreachable given ¬jsFalsy
      | some cid =>
        let chats := getLocalChats s
        let s1 :=
          match chats.findIdx? (fun c => c.id = chatId) with
          | some index =>
            match chats[index]? with
            | some old => saveLocalChats (chats.set index { old with cid := some cid }) s
            | none => s                -- unreachable: `findIdx?` is in bounds
          | none => s
        let s2 := storeCIDMapping chatId cid s1
        (s2, some cid, [attempt])

/-- Function `syncAllChatsToDSN(address)`: iterate over the snapshot of the chats
collection; for each chat with `!chat.cid || chat.updatedAt > (chat.createdAt
|| 0)` run `saveChatToDSN(chat.id, address || chat.address)` on the current
store; finally stamp the last-sync time.  Returns the new store and all
upload attempts made. -/
def syncChatsLoop (env : DSNEnv) (now : Nat) (address : Option String) :
    List ChatSession → Store → Store × List UploadAttempt
  | [], s => (s, [])
  | chat :: rest, s =>
    if jsFalsy chat.cid || decide (chat.updatedAt > chat.createdAt) then
      let (s1, _, atts) := saveChatToDSN env now chat.id (jsOr address chat.address) s
      let (s2, atts') := syncChatsLoop env now address rest s1
      (s2, atts ++ atts')
    else
      syncChatsLoop env now address rest s

def syncAllChatsToDSN (env : DSNEnv) (now : Nat) (address : Option String)
    (s : Store) : Store × List UploadAttempt :=
  let (s1, atts) := syncChatsLoop env now address (getLocalChats s) s
  ({ s1 with lastSync := some now }, atts)

/-- Function `deleteChat(chatId)`: filter the session out of the collection, delete
its CID-map entry, clear and delete its debounce timer. -/
def deleteChat (chatId : String) (s : Store) : Store :=
  { chats := (getLocalChats s).filter (fun c => ¬ c.id = chatId)
    cidMap := fun k => if k = chatId then none else s.cidMap k
    lastSync := s.lastSync
    timers := fun k => if k = chatId then none else s.timers k }

/-- A debounce timer for `chatId` fires: the armed callback
`saveChatToDSN(chat.id, chat.address)` runs once and the timer is no longer
armed.  Returns the new store and the upload attempts made. -/
def fireTimer (env : DSNEnv) (now : Nat) (chatId : String) (s : Store) :
    Store × List UploadAttempt :=
  match s.timers chatId with
  | none => (s, [])
  | some t =>
    let s1 := { s with timers := fun k => if k = chatId then none else s.timers k }
    let (s2, _, atts) := saveChatToDSN env now chatId t.address s1
    (s2, atts)

/-! ## Retry helper (`src/lib/error-handling.ts`) -/

/-- The error classes thrown in `error-handling.ts` and by the operations it
wraps.  `wallet` carries the optional `code`; `generic` covers plain
`Error`s (a DSN not-found, a missing-credential error, an HTTP 4xx, …). -/
inductive JSError where
  | wallet (message : String) (code : Option String)
  | insufficientBalance (message : String)
  | network (message : String)
  | dsn (message : String) (cid : Option String)
  | generic (message : String)
deriving DecidableEq, Repr

/-- Record `RetryConfig` after merging with `DEFAULT_RETRY_CONFIG`
(`Required<RetryConfig>`, minus the `onRetry` callback which only logs). -/
structure RetryConfig where
  maxAttempts : Nat
  initialDelay : Nat
  maxDelay : Nat
  backoffMultiplier : Nat
  shouldRetry : JSError → Nat → Bool

/-- Predicate `DEFAULT_RETRY_CONFIG.shouldRetry`: retry on everything except
`WalletError` with code `ACTION_REJECTED` and `InsufficientBalanceError`. -/
def defaultShouldRetry (e : JSError) (_attempt : Nat) : Bool :=
  match e with
  | .wallet _ (some code) => ¬ code = "ACTION_REJECTED"
  | .insufficientBalance _ => false
  | _ => true

/-- Function `calculateDelay(attempt, config)` =
`min(initialDelay * backoffMultiplier ** (attempt - 1), maxDelay)`. -/
def calculateDelay (attempt : Nat) (config : RetryConfig) : Nat :=
  min (config.initialDelay * config.backoffMultiplier ^ (attempt - 1))
    config.maxDelay

/-- Result of a `withRetry` run: the value or the error finally thrown, the
number of times the wrapped operation was invoked, and the backoff delays
slept between attempts, in order. -/
structure RetryOutcome (T : Type) where
  result : Except JSError T
  attempts : Nat
  delays : List Nat
deriving Repr

/-- The `for (let attempt = 1; attempt <= maxAttempts; attempt++)` loop of
`withRetry`.  `op k` is the wrapped operation's behavior on its `k`-th
invocation.  `fuel` is `maxAttempts - attempt + 1` at entry; when the loop
exits without returning (only possible with `maxAttempts = 0`) the function
throws `lastError || Error('Retry failed with unknown error')`. -/
def withRetryLoop {T : Type} (op : Nat → Except JSError T)
    (config : RetryConfig) : Nat → Nat → RetryOutcome T
  | 0, _ => ⟨.error (.generic "Retry failed with unknown error"), 0, []⟩
  | fuel + 1, attempt =>
    match op attempt with
    | .ok v => ⟨.ok v, 1, []⟩
    | .error e =>
      let isLastAttempt := attempt = config.maxAttempts
      let shouldRetry := config.shouldRetry e attempt
      if isLastAttempt ∨ ¬ shouldRetry then
        ⟨.error e, 1, []⟩
      else
        let delay := calculateDelay attempt config
        let rest := withRetryLoop op config fuel (attempt + 1)
        ⟨rest.result, rest.attempts + 1, delay :: rest.delays⟩

/-- Function `withRetry(operation, config)`. -/
def withRetry {T : Type} (op : Nat → Except JSError T)
    (config : RetryConfig) : RetryOutcome T :=
  withRetryLoop op config config.maxAttempts 1

/-- The effective configuration of `retryDSNOperation`: overrides
`maxAttempts = 4`, `initialDelay = 1000`, `maxDelay = 16000`; keeps the
default `backoffMultiplier = 2` and the default `shouldRetry`. -/
def dsnRetryConfig : RetryConfig :=
  { maxAttempts := 4
    initialDelay := 1000
    maxDelay := 16000
    backoffMultiplier := 2
    shouldRetry := defaultShouldRetry }

/-- Function `retryDSNOperation(operation)`. -/
def retryDSNOperation {T : Type} (op : Nat → Except JSError T) :
    RetryOutcome T :=
  withRetry op dsnRetryConfig

/-! ## Encryption, symbolic model

The unnamed module (`deriveKey` / `encryptData` / `decryptData`) derives an
AES-GCM key by PBKDF2 from `address.toLowerCase() + salt` with the fixed
salt `'ai-memory-box-v1'`, and packs `IV ‖ ciphertext` into one blob.
AES-GCM is authenticated, so decryption succeeds exactly when key and IV
match; PBKDF2 is idealized as injective, so a key is represented by its
key-material string.  IVs are abstract nonces (`Nat`). -/

/-- Model of `address.toLowerCase()`: character-wise lowercasing (the model of the
JavaScript string method; defined on the character list so the kernel can
evaluate it). -/
def strToLower (s : String) : String :=
  ⟨s.data.map Char.toLower⟩

/-- A symbolic AES-GCM ciphertext: records the key material, IV and
plaintext that produced it.  (`crypto.subtle.encrypt`.) -/
structure SymCipher where
  keyMaterial : String
  iv : Nat
  plaintext : String
deriving DecidableEq, Repr

/-- Model of `crypto.subtle.decrypt`: authenticated decryption, succeeds exactly when
the supplied key material and IV match the ones the ciphertext was produced
with; otherwise it throws (`none`). -/
def subtleDecrypt (keyMaterial : String) (iv : Nat) (c : SymCipher) :
    Option String :=
  if c.keyMaterial = keyMaterial ∧ c.iv = iv then some c.plaintext else none

/-- Function `deriveKey(address, salt = 'ai-memory-box-v1')`: the PBKDF2 key material
is `address.toLowerCase() + salt`. -/
def deriveKey (address : String) (salt : String := "ai-memory-box-v1") :
    String :=
  strToLower address ++ salt

/-- The blob produced by `encryptData`: `base64(IV ‖ ciphertext)`, modelled
as the pair of its two components. -/
structure EncryptedBlob where
  iv : Nat
  cipher : SymCipher
deriving DecidableEq, Repr

/-- Function `encryptData(data, address)` with the fresh random IV made explicit. -/
def encryptData (data address : String) (iv : Nat) : EncryptedBlob :=
  { iv := iv, cipher := { keyMaterial := deriveKey address, iv := iv, plaintext := data } }

/-- Function `decryptData(encryptedData, address)`: split off the IV, derive the key
from `address`, decrypt; any failure is caught and `null` is returned. -/
def decryptData (blob : EncryptedBlob) (address : String) : Option String :=
  subtleDecrypt (deriveKey address) blob.iv blob.cipher

/-- Function `encryptMessages(messages, address)` (unnamed module): stringify, then
`encryptData`; throws if `encryptData` returned `null` (it cannot here,
since Web Crypto availability is assumed).  `stringifyMessages` stands for
`JSON.stringify` on the message list. -/
def encryptMessages (stringifyMessages : List ChatMessage → String)
    (messages : List ChatMessage) (address : String) (iv : Nat) :
    EncryptedBlob :=
  encryptData (stringifyMessages messages) address iv

/-- Function `decryptMessages(encryptedData, address)` (unnamed module): `decryptData`,
throw `'Failed to decrypt messages'` on `null`, then `JSON.parse`
(`parseMessages`; `none` = parse throws). -/
def decryptMessages (parseMessages : String → Option (List ChatMessage))
    (blob : EncryptedBlob) (address : String) :
    Except String (List ChatMessage) :=
  match decryptData blob address with
  | none => .error "Failed to decrypt messages"
  | some decrypted =>
    match parseMessages decrypted with
    | none => .error "JSON.parse failed"
    | some ms => .ok ms

/-! ### `src/lib/encryption.ts` (password-based variant)

`encrypt(data, password)` draws a fresh random salt and IV per call and
stores both in the `EncryptedData` record; the key material is the
`(password, salt)` pair fed to PBKDF2 (salts are abstract nonces here, so
the pair is the symbolic key). -/

structure SymCipherP where
  password : String
  salt : Nat
  iv : Nat
  plaintext : String
deriving DecidableEq, Repr

/-- The `EncryptedData` record of `encryption.ts`:
`{ encrypted, iv, salt }`. -/
structure EncryptedData where
  encrypted : SymCipherP
  iv : Nat
  salt : Nat
deriving DecidableEq, Repr

/-- Function `encrypt(data, password)` with the random salt and IV made explicit. -/
def encrypt (data password : String) (salt iv : Nat) : EncryptedData :=
  { encrypted := { password := password, salt := salt, iv := iv, plaintext := data }
    iv := iv
    salt := salt }

/-- Function `decrypt(encryptedData, password)`: re-derive the key from the blob's
salt and the supplied password, authenticated-decrypt with the blob's IV;
on any failure throw `'Failed to decrypt data - wrong password or corrupted
data'`. -/
def decrypt (ed : EncryptedData) (password : String) : Except String String :=
  if ed.encrypted.password = password ∧ ed.encrypted.salt = ed.salt
      ∧ ed.encrypted.iv = ed.iv then
    .ok ed.encrypted.plaintext
  else
    .error "Failed to decrypt data - wrong password or corrupted data"

/-- Function `generatePasswordFromAddress(address)` =
`` `aimemorybox_${address.toLowerCase()}_encryption_key` ``. -/
def generatePasswordFromAddress (address : String) : String :=
  "aimemorybox_" ++ strToLower address ++ "_encryption_key"

/-! ## `loadMessages` (unnamed memory-storage module)

The control flow of `loadMessages(address, cid?, options)` is modelled
faithfully; its collaborators are an environment: the AutoDrive download
(`null` = failure), the local CID mapping for the address, the
`localStorage` item for the address, and the behavior of
`decryptMessages` / `JSON.parse` on whatever string is obtained (`none` =
throws).  The whole body runs in a `try` whose `catch` returns `[]`. -/

structure StorageOptions where
  encrypted : Bool := true
  useDSN : Bool := true
  fallbackToLocal : Bool := true

structure LoadEnv where
  download : String → Option String
  cidMappingFor : Option String
  localItem : Option String
  decryptMessages : String → Option (List ChatMessage)
  parse : String → Option (List ChatMessage)

/-- Lines 110–127 of `loadMessages`: resolve the raw data string (DSN by
explicit CID, else DSN by locally-mapped CID, else the localStorage
fallback).  JavaScript truthiness: an empty-string download also falls
through to the local fallback. -/
def loadResolveData (env : LoadEnv) (cid : Option String)
    (options : StorageOptions) : Option String :=
  let data : Option String :=
    if options.useDSN && !jsFalsy cid then
      env.download (cid.getD "")
    else if options.useDSN then
      match env.cidMappingFor with
      | some mcid => env.download mcid
      | none => none
    else none
  if jsFalsy data && options.fallbackToLocal then env.localItem else data

/-- Function `loadMessages(address, cid?, options)`: resolve data, return `[]` when
none was found, decrypt (or parse) otherwise; every thrown error is caught
and `[]` is returned. -/
def loadMessages (env : LoadEnv) (cid : Option String)
    (options : StorageOptions) : List ChatMessage :=
  let data := loadResolveData env cid options
  if jsFalsy data then []
  else
    let d := data.getD ""
    if options.encrypted then
      match env.decryptMessages d with
      | some ms => ms
      | none => []                    -- decrypt threw; caught, return []
    else
      match env.parse d with
      | some ms => ms
      | none => []                    -- JSON.parse threw; caught, return []

/-! ## Raw-content model of `getLocalChats`

For the claim about `getLocalChats` on arbitrary local-storage content the
storage string is classified at the JSON level: absent, present but
unparseable (`JSON.parse` throws), or present and parsing to a JSON
document `j` — which the source returns unvalidated (`return stored ?
JSON.parse(stored) : []`). -/

inductive Json where
  | null
  | bool (b : Bool)
  | num (n : Int)
  | str (s : String)
  | arr (elems : List Json)
  | obj (fields : List (String × Json))

def Json.isArr : Json → Bool
  | .arr _ => true
  | _ => false

/-- The content found under the `ai_memory_box_chats` key: absent, present
but malformed, or present and parsing to `j`. -/
inductive RawContent where
  | absent
  | malformed
  | parsed (j : Json)

/-- Function `getLocalChats` at the raw level: `stored ? JSON.parse(stored) : []`,
with the `catch` branch returning `[]`.  The parse result is returned as-is,
with no validation of its shape. -/
def getLocalChatsRaw : RawContent → Json
  | .absent => .arr []
  | .malformed => .arr []             -- JSON.parse threw; caught, return []
  | .parsed j => j

/-! # Theorems -/

/-! ## Helper lemmas on strings -/

theorem strAppend_cancel_right (a b c : String) (h : a ++ c = b ++ c) :
    a = b := by
  have hd : a.data ++ c.data = b.data ++ c.data := by
    have := congrArg String.data h
    simpa [String.data_append] using this
  exact String.ext (List.append_cancel_right hd)

theorem strAppend_cancel_left (c a b : String) (h : c ++ a = c ++ b) :
    a = b := by
  have hd : c.data ++ a.data = c.data ++ b.data := by
    have := congrArg String.data h
    simpa [String.data_append] using this
  exact String.ext (List.append_cancel_left hd)

theorem deriveKey_injective (A B : String)
    (h : strToLower A ≠ strToLower B) : deriveKey A ≠ deriveKey B := by
  intro heq
  exact h (strAppend_cancel_right _ _ _ heq)

theorem generatePasswordFromAddress_injective (A B : String)
    (h : strToLower A ≠ strToLower B) :
    generatePasswordFromAddress A ≠ generatePasswordFromAddress B := by
  intro heq
  have h1 : "aimemorybox_" ++ strToLower A = "aimemorybox_" ++ strToLower B :=
    strAppend_cancel_right _ _ _ heq
  exact h (strAppend_cancel_left _ _ _ h1)

/-! ## C7 — encryption round-trip -/

/-- C7: for every session payload `S` and wallet address `A`, decrypting
with `A` the result of encrypting `S` under `A` returns `S` unchanged.
Stated for both encryption modules: `encryptData`/`decryptData` of the
unnamed module (keyed directly by address) and `encrypt`/`decrypt` of
`encryption.ts` (keyed by the password derived from the address). -/
theorem decrypt_encrypt_roundtrip (payload A : String) (ivd salt ivp : Nat) :
    decryptData (encryptData payload A ivd) A = some payload ∧
    decrypt (encrypt payload (generatePasswordFromAddress A) salt ivp)
      (generatePasswordFromAddress A) = .ok payload := by
  constructor
  · simp [decryptData, encryptData, subtleDecrypt]
  · simp [decrypt, encrypt]

/-! ## C2 — key isolation -/

/-- C2 counterexample: the addresses `"0xAB"` and `"0xab"` are distinct as
strings, yet a blob encrypted under `"0xAB"` decrypts successfully (and
silently returns the plaintext) under `"0xab"`, because `deriveKey`
lowercases the address.  This refutes the claim that for every pair of
distinct addresses decryption always fails. -/
theorem decrypt_case_variant_address_succeeds :
    ("0xAB" : String) ≠ "0xab" ∧
    decryptData (encryptData "secret" "0xAB" 0) "0xab" = some "secret" := by
  refine ⟨by decide, by decide⟩

/-- C2 amended: for wallet addresses whose lowercased forms differ,
decryption of a blob encrypted under `A` using `B` always fails —
`decryptData` returns `null` and `encryption.ts`'s `decrypt` throws — and
never silently returns a plaintext.  (Letter-case variants of one address
share the derived key and decrypt successfully.) -/
theorem decrypt_distinct_lowercase_address_fails (S A B : String)
    (ivd salt ivp : Nat) (h : strToLower A ≠ strToLower B) :
    decryptData (encryptData S A ivd) B = none ∧
    decrypt (encrypt S (generatePasswordFromAddress A) salt ivp)
      (generatePasswordFromAddress B) =
      .error "Failed to decrypt data - wrong password or corrupted data" := by
  have hk := deriveKey_injective A B h
  have hp := generatePasswordFromAddress_injective A B h
  constructor
  · simp [decryptData, encryptData, subtleDecrypt, hk]
  · simp [decrypt, encrypt, hp]

theorem decrypt_distinct_lowercase_address_fails_witness :
    decryptData (encryptData "s" "0xAA" 3) "0xBB" = none ∧
    decrypt (encrypt "s" (generatePasswordFromAddress "0xAA") 1 2)
      (generatePasswordFromAddress "0xBB") =
      .error "Failed to decrypt data - wrong password or corrupted data" :=
  decrypt_distinct_lowercase_address_fails "s" "0xAA" "0xBB" 3 1 2 (by decide)

/-! ## C10 — lowercasing makes encryption case-insensitive in the address -/

/-- C10: key derivation lowercases the wallet address, so a message list
encrypted under any letter-case variant `V1` of an address `A` decrypts
successfully under any other variant `V2` and yields the original list
(given that the JSON codec round-trips, which is a property of the host
JSON library).  Likewise `generatePasswordFromAddress` gives the same
password for both variants. -/
theorem encryption_case_insensitive_in_address
    (ms : List ChatMessage) (A V1 V2 : String) (iv : Nat)
    (stringifyMessages : List ChatMessage → String)
    (parseMessages : String → Option (List ChatMessage))
    (h1 : strToLower V1 = strToLower A) (h2 : strToLower V2 = strToLower A)
    (hcodec : parseMessages (stringifyMessages ms) = some ms) :
    decryptMessages parseMessages
      (encryptMessages stringifyMessages ms V1 iv) V2 = .ok ms ∧
    generatePasswordFromAddress V1 = generatePasswordFromAddress V2 := by
  have hk : deriveKey V1 = deriveKey V2 := by
    unfold deriveKey; rw [h1, h2]
  constructor
  · simp [decryptMessages, encryptMessages, encryptData, decryptData,
      subtleDecrypt, hk, hcodec]
  · unfold generatePasswordFromAddress
    rw [h1, h2]

theorem encryption_case_insensitive_in_address_witness :
    decryptMessages
      (fun s => if s = "payload" then some [⟨"m1", .user, "hi", 0, none⟩] else none)
      (encryptMessages (fun _ => "payload") [⟨"m1", .user, "hi", 0, none⟩] "0xAb" 7)
      "0xaB" = .ok [⟨"m1", .user, "hi", 0, none⟩] ∧
    generatePasswordFromAddress "0xAb" = generatePasswordFromAddress "0xaB" :=
  encryption_case_insensitive_in_address
    [⟨"m1", .user, "hi", 0, none⟩] "0xab" "0xAb" "0xaB" 7
    (fun _ => "payload")
    (fun s => if s = "payload" then some [⟨"m1", .user, "hi", 0, none⟩] else none)
    (by decide) (by decide) (by decide)

/-! ## C8 — `getLocalChats` fails open -/

/-- C8 counterexample: when the stored content is the valid JSON document
`5` (present and parseable, but not an array), `getLocalChats` returns the
number `5` unvalidated — not a sequence of sessions and not the empty
sequence.  This refutes the claim that for every local-storage content the
function returns a sequence of sessions. -/
theorem getLocalChats_returns_nonarray_json :
    getLocalChatsRaw (.parsed (.num 5)) = .num 5 ∧
    (Json.num 5).isArr = false :=
  ⟨rfl, rfl⟩

/-- C8 amended: `getLocalChats` never throws; it returns the empty array
when the key is absent or `JSON.parse` throws, and otherwise returns the
parsed JSON document as-is, with no validation of its shape (so it is the
stored collection exactly when the stored document was one). -/
theorem getLocalChats_fails_open :
    getLocalChatsRaw .absent = .arr [] ∧
    getLocalChatsRaw .malformed = .arr [] ∧
    ∀ j, getLocalChatsRaw (.parsed j) = j :=
  ⟨rfl, rfl, fun _ => rfl⟩

/-! ## C3 — retry policy of `retryDSNOperation` -/

theorem withRetryLoop_attempts_le {T : Type} (op : Nat → Except JSError T)
    (config : RetryConfig) (fuel a : Nat) :
    (withRetryLoop op config fuel a).attempts ≤ fuel := by
  induction fuel generalizing a with
  | zero => simp [withRetryLoop]
  | succ n ih =>
    simp only [withRetryLoop]
    split
    · simp
    · split
      · simp
      · show (withRetryLoop op config n (a + 1)).attempts + 1 ≤ n + 1
        have := ih (a + 1)
        omega

theorem withRetryLoop_delays {T : Type} (op : Nat → Except JSError T)
    (config : RetryConfig) (fuel a j d : Nat)
    (hj : (withRetryLoop op config fuel a).delays[j]? = some d) :
    d = calculateDelay (a + j) config := by
  induction fuel generalizing a j with
  | zero => simp [withRetryLoop] at hj
  | succ n ih =>
    rw [withRetryLoop] at hj
    split at hj
    · simp at hj
    · dsimp only at hj
      split at hj
      · simp at hj
      · cases j with
        | zero =>
          simp only [List.getElem?_cons_zero, Option.some.injEq] at hj
          rw [← hj, Nat.add_zero]
        | succ m =>
          simp only [List.getElem?_cons_succ] at hj
          have := ih (a + 1) m hj
          rw [this]
          congr 1
          omega

/-- C3 counterexample: a persistently failing not-found-style DSN error is
retried — `retryDSNOperation` makes 4 attempts with backoff delays
1000/2000/4000 ms — instead of surfacing it immediately after the first
attempt.  This refutes the claim that not-found / missing-credential / 4xx
failures are not retried. -/
theorem retryDSNOperation_retries_notfound :
    (retryDSNOperation (T := Unit)
      (fun _ => .error (.dsn "File not found" none))).attempts = 4 ∧
    (retryDSNOperation (T := Unit)
      (fun _ => .error (.dsn "File not found" none))).delays =
      [1000, 2000, 4000] := by
  refine ⟨by decide, by decide⟩

/-- C3 amended: `retryDSNOperation` retries with bounded attempts (at most
4) and capped exponential backoff (the `j`-th delay is
`min(1000·2^j, 16000)`); but the only failures it surfaces immediately
after the first attempt are the ones its default `shouldRetry` rejects —
`WalletError` with code `ACTION_REJECTED` and `InsufficientBalanceError`.
Every other failure (network, 5xx, missing credential, 4xx auth, quota,
not-found) is retried: a persistent such failure leads to exactly 4
attempts with delays `[1000, 2000, 4000]`. -/
theorem retryDSNOperation_policy {T : Type} (op : Nat → Except JSError T) :
    (retryDSNOperation op).attempts ≤ 4 ∧
    (∀ j d, (retryDSNOperation op).delays[j]? = some d →
        d = min (1000 * 2 ^ j) 16000) ∧
    (∀ e, op 1 = .error e → defaultShouldRetry e 1 = false →
        retryDSNOperation op = ⟨.error e, 1, []⟩) ∧
    (∀ err : Nat → JSError, (∀ k, op k = .error (err k)) →
        (∀ k, defaultShouldRetry (err k) k = true) →
        retryDSNOperation op = ⟨.error (err 4), 4, [1000, 2000, 4000]⟩) := by
  refine ⟨?_, ?_, ?_, ?_⟩
  · exact withRetryLoop_attempts_le op dsnRetryConfig 4 1
  · intro j d hj
    have := withRetryLoop_delays op dsnRetryConfig 4 1 j d hj
    simpa [calculateDelay, dsnRetryConfig, Nat.add_comm 1 j] using this
  · intro e h1 hstop
    simp [retryDSNOperation, withRetry, dsnRetryConfig, withRetryLoop, h1, hstop]
  · intro err hall hretry
    simp [retryDSNOperation, withRetry, dsnRetryConfig, withRetryLoop,
      hall 1, hall 2, hall 3, hall 4, hretry 1, hretry 2, hretry 3,
      calculateDelay]

theorem retryDSNOperation_policy_witness :
    retryDSNOperation (T := Unit)
      (fun _ => .error (.generic "Missing AUTONOMYS_API_KEY")) =
      ⟨.error (.generic "Missing AUTONOMYS_API_KEY"), 4, [1000, 2000, 4000]⟩ ∧
    retryDSNOperation (T := Unit)
      (fun _ => .error (.insufficientBalance "no funds")) =
      ⟨.error (.insufficientBalance "no funds"), 1, []⟩ := by
  constructor
  · exact (retryDSNOperation_policy
      (fun _ => .error (.generic "Missing AUTONOMYS_API_KEY"))).2.2.2
      (fun _ => .generic "Missing AUTONOMYS_API_KEY")
      (fun _ => rfl) (fun _ => rfl)
  · exact (retryDSNOperation_policy (T := Unit)
      (fun _ => .error (.insufficientBalance "no funds"))).2.2.1
      (.insufficientBalance "no funds") rfl rfl

/-! ## List helper lemmas (first-match upsert, filter/find interaction) -/

theorem find?_eq_none_of_findIdx?_eq_none {α : Type} (p : α → Bool)
    (l : List α) (h : l.findIdx? p = none) : l.find? p = none := by
  rw [List.find?_eq_none]
  intro x hx
  simp [List.findIdx?_eq_none_iff.mp h x hx]

theorem find?_set_of_findIdx? {α : Type} (p : α → Bool) (b : α)
    (hb : p b = true) :
    ∀ (l : List α) (i : Nat), l.findIdx? p = some i →
      (l.set i b).find? p = some b := by
  intro l
  induction l with
  | nil => intro i h; simp [List.findIdx?_nil] at h
  | cons x xs ih =>
    intro i h
    rw [List.findIdx?_cons, List.findIdx?_succ] at h
    by_cases hp : p x
    · simp only [hp, if_true] at h
      obtain rfl : i = 0 := by simpa using h.symm
      simp [List.find?_cons, hb]
    · simp only [hp, if_false] at h
      cases hx : xs.findIdx? p with
      | none => rw [hx] at h; simp at h
      | some j =>
        rw [hx] at h
        obtain rfl : i = j + 1 := by simpa using h.symm
        rw [List.set_cons_succ, List.find?_cons]
        simp only [hp]
        exact ih j hx

theorem getElem?_find?_of_findIdx? {α : Type} (p : α → Bool) :
    ∀ (l : List α) (i : Nat), l.findIdx? p = some i →
      ∃ a, l[i]? = some a ∧ l.find? p = some a := by
  intro l
  induction l with
  | nil => intro i h; simp [List.findIdx?_nil] at h
  | cons x xs ih =>
    intro i h
    rw [List.findIdx?_cons, List.findIdx?_succ] at h
    by_cases hp : p x
    · simp only [hp, if_true] at h
      obtain rfl : i = 0 := by simpa using h.symm
      exact ⟨x, by simp, by simp [List.find?_cons, hp]⟩
    · simp only [hp, if_false] at h
      cases hx : xs.findIdx? p with
      | none => rw [hx] at h; simp at h
      | some j =>
        rw [hx] at h
        obtain rfl : i = j + 1 := by simpa using h.symm
        obtain ⟨a, h1, h2⟩ := ih j hx
        exact ⟨a, by simpa [List.getElem?_cons_succ] using h1,
          by simp [List.find?_cons, hp, h2]⟩

theorem set_getElem?_self {α : Type} :
    ∀ (l : List α) (i : Nat) (a : α), l[i]? = some a → l.set i a = l := by
  intro l
  induction l with
  | nil => intro i a h; simp at h
  | cons x xs ih =>
    intro i a h
    cases i with
    | zero => simp at h; simp [h]
    | succ n =>
      simp only [List.getElem?_cons_succ] at h
      rw [List.set_cons_succ, ih n a h]

theorem map_set_of_getElem? {α β : Type} (f : α → β) (l : List α)
    (i : Nat) (a b : α) (ha : l[i]? = some a) (hfb : f b = f a) :
    (l.set i b).map f = l.map f := by
  rw [List.map_set, hfb]
  apply set_getElem?_self
  rw [List.getElem?_map, ha]
  rfl

theorem find?_filter_of_imp {α : Type} (p q : α → Bool)
    (hpq : ∀ x, p x = true → q x = true) :
    ∀ l : List α, (l.filter q).find? p = l.find? p := by
  intro l
  induction l with
  | nil => simp
  | cons x xs ih =>
    by_cases hq : q x
    · simp only [List.filter_cons, hq, if_true, List.find?_cons, ih]
    · have hq' : q x = false := by simpa using hq
      have hp : p x = false := by
        cases hpx : p x
        · rfl
        · exact absurd (hpq x hpx) (by simp [hq'])
      simp [List.filter_cons, hq', List.find?_cons, hp, ih]

/-! ## C5 — delete clears all traces -/

/-- C5: after `deleteChat(id)`, `getChatById(id)` is absent,
`getCIDForChat(id)` is absent and no debounce timer remains armed for `id`,
while the session record, CID-map entry and timer of every other id are
unchanged. -/
theorem deleteChat_clears_all_traces (s : Store) (chatId otherId : String)
    (hne : otherId ≠ chatId) :
    getChatById chatId (deleteChat chatId s) = none ∧
    getCIDForChat chatId (deleteChat chatId s) = none ∧
    (deleteChat chatId s).timers chatId = none ∧
    getChatById otherId (deleteChat chatId s) = getChatById otherId s ∧
    getCIDForChat otherId (deleteChat chatId s) = getCIDForChat otherId s ∧
    (deleteChat chatId s).timers otherId = s.timers otherId := by
  refine ⟨?_, ?_, ?_, ?_, ?_, ?_⟩
  · apply List.find?_eq_none.mpr
    intro x hx
    have hm := (List.mem_filter.mp hx).2
    simp only [decide_not, Bool.not_eq_eq_eq_not, Bool.not_true,
      decide_eq_false_iff_not] at hm
    simpa using hm
  · simp [getCIDForChat, deleteChat, jsFalsy]
  · simp [deleteChat]
  · unfold getChatById getLocalChats deleteChat
    apply find?_filter_of_imp
    intro x hx
    simp only [decide_eq_true_eq] at hx
    simp [hx, hne]
  · simp [getCIDForChat, deleteChat, hne]
  · simp [deleteChat, hne]

def demoChat : ChatSession :=
  { id := "s1", title := "t", messages := [], createdAt := 0, updatedAt := 1 }

def demoChat2 : ChatSession :=
  { id := "s2", title := "u", messages := [], createdAt := 0, updatedAt := 2 }

def demoStore : Store :=
  { chats := [demoChat, demoChat2]
    cidMap := fun k => if k = "s2" then some "cidB" else none
    lastSync := none
    timers := fun k => if k = "s1" then some ⟨some "0xab"⟩ else none }

theorem deleteChat_clears_all_traces_witness :
    getChatById "s1" (deleteChat "s1" demoStore) = none ∧
    getCIDForChat "s1" (deleteChat "s1" demoStore) = none ∧
    (deleteChat "s1" demoStore).timers "s1" = none ∧
    getChatById "s2" (deleteChat "s1" demoStore) = getChatById "s2" demoStore ∧
    getCIDForChat "s2" (deleteChat "s1" demoStore) = getCIDForChat "s2" demoStore ∧
    (deleteChat "s1" demoStore).timers "s2" = demoStore.timers "s2" :=
  deleteChat_clears_all_traces demoStore "s1" "s2" (by decide)

/-! ## C6 — CID mapping consistency after a successful upload -/

/-- C6: whenever `saveChatToDSN` succeeds with CID `cid`, the CID side
table answers `cid` for the chat id and the session record stored in the
collection carries the same `cid` field. -/
theorem saveChatToDSN_cid_mapping_consistent (env : DSNEnv) (now : Nat)
    (chatId : String) (address : Option String) (s s' : Store) (cid : String)
    (atts : List UploadAttempt)
    (h : saveChatToDSN env now chatId address s = (s', some cid, atts)) :
    getCIDForChat chatId s' = some cid ∧
    ∃ chat, getChatById chatId s' = some chat ∧ chat.cid = some cid := by
  unfold saveChatToDSN at h
  cases hfind : getChatById chatId s with
  | none => rw [hfind] at h; simp at h
  | some chat =>
    rw [hfind] at h
    dsimp only at h
    split at h
    · simp at h
    · rename_i hcid
      split at h
      · simp at h
      · rename_i cid0 hcid0
        rw [hcid0] at hcid
        -- the upsert branch: relate find? to findIdx?
        have hfind' : (getLocalChats s).find? (fun c => decide (c.id = chatId)) =
            some chat := hfind
        have hp := List.find?_some hfind'
        cases hidx : (getLocalChats s).findIdx? (fun c => decide (c.id = chatId)) with
        | none =>
          rw [find?_eq_none_of_findIdx?_eq_none _ _ hidx] at hfind'
          exact absurd hfind' (by simp)
        | some i =>
          obtain ⟨a, ha1, ha2⟩ :=
            getElem?_find?_of_findIdx? _ (getLocalChats s) i hidx
          have haeq : a = chat := Option.some.inj (ha2.symm.trans hfind')
          rw [hidx] at h
          dsimp only at h
          rw [ha1] at h
          dsimp only at h
          simp only [Prod.mk.injEq] at h
          obtain ⟨hs', hcideq, -⟩ := h
          obtain rfl : cid0 = cid := Option.some.inj hcideq
          subst haeq
          constructor
          · rw [← hs']
            have hcid' : ¬ cid0 = "" := by simpa [jsFalsy] using hcid
            simp [getCIDForChat, storeCIDMapping, saveLocalChats, jsFalsy, hcid']
          · refine ⟨{ a with cid := some cid0 }, ?_, rfl⟩
            rw [← hs']
            show ((getLocalChats s).set i { a with cid := some cid0 }).find?
              (fun c => decide (c.id = chatId)) = some { a with cid := some cid0 }
            exact find?_set_of_findIdx? _ { a with cid := some cid0 } hp
              (getLocalChats s) i hidx

def demoEnv : DSNEnv :=
  { stringify := fun c => c.id ++ "#" ++ toString c.messages.length
    upload := fun _ _ => some "cid1" }

theorem saveChatToDSN_cid_mapping_consistent_witness :
    getCIDForChat "s1" (saveChatToDSN demoEnv 5 "s1" none demoStore).1 =
      some "cid1" ∧
    ∃ chat,
      getChatById "s1" (saveChatToDSN demoEnv 5 "s1" none demoStore).1 =
        some chat ∧ chat.cid = some "cid1" :=
  saveChatToDSN_cid_mapping_consistent demoEnv 5 "s1" none demoStore
    (saveChatToDSN demoEnv 5 "s1" none demoStore).1 "cid1"
    (saveChatToDSN demoEnv 5 "s1" none demoStore).2.2 rfl

/-! ## Structural lemmas on `saveChatToDSN` -/

theorem saveChatToDSN_timers (env : DSNEnv) (now : Nat) (chatId : String)
    (address : Option String) (s : Store) :
    ((saveChatToDSN env now chatId address s).1).timers = s.timers := by
  unfold saveChatToDSN
  cases getChatById chatId s with
  | none => rfl
  | some chat =>
    dsimp only
    split
    · rfl
    · split
      · rfl
      · cases (getLocalChats s).findIdx? (fun c => decide (c.id = chatId)) with
        | none => rfl
        | some i =>
          dsimp only
          cases (getLocalChats s)[i]? with
          | none => rfl
          | some old => rfl

theorem saveChatToDSN_chats_ids (env : DSNEnv) (now : Nat) (chatId : String)
    (address : Option String) (s : Store) :
    ((saveChatToDSN env now chatId address s).1).chats.map (fun c => c.id) =
      s.chats.map (fun c => c.id) := by
  unfold saveChatToDSN
  cases getChatById chatId s with
  | none => rfl
  | some chat =>
    dsimp only
    split
    · rfl
    · split
      · rfl
      · cases hidx : (getLocalChats s).findIdx? (fun c => decide (c.id = chatId)) with
        | none => rfl
        | some i =>
          dsimp only
          cases ha : (getLocalChats s)[i]? with
          | none => rfl
          | some old =>
            show ((getLocalChats s).set i { old with cid := _ }).map (fun c => c.id) =
              s.chats.map (fun c => c.id)
            exact map_set_of_getElem? _ _ i old _ ha rfl

theorem saveChatToDSN_attempts (env : DSNEnv) (now : Nat) (chatId : String)
    (address : Option String) (s : Store) (ch : ChatSession)
    (h : getChatById chatId s = some ch) :
    (saveChatToDSN env now chatId address s).2.2 =
      [{ chatId := chatId, data := env.stringify ch,
         metadata := { address := jsOr address ch.address, timestamp := now,
                       messageCount := ch.messages.length } }] := by
  unfold saveChatToDSN
  rw [h]
  dsimp only
  split
  · rfl
  · split
    · rfl
    · rfl

/-! ## C1 — which sessions the periodic sweep uploads -/

/-- The condition on line 239 of `chat-persistence.ts`:
`!chat.cid || chat.updatedAt > (chat.createdAt || 0)`. -/
def sweepCondition (c : ChatSession) : Bool :=
  jsFalsy c.cid || decide (c.updatedAt > c.createdAt)

theorem syncChatsLoop_spec (env : DSNEnv) (now : Nat)
    (address : Option String) :
    ∀ (l : List ChatSession) (st : Store),
      (∀ c ∈ l, ∃ x ∈ st.chats, x.id = c.id) →
      (syncChatsLoop env now address l st).2.map (fun a => a.chatId) =
        (l.filter sweepCondition).map (fun c => c.id) ∧
      ((syncChatsLoop env now address l st).1).chats.map (fun c => c.id) =
        st.chats.map (fun c => c.id) := by
  intro l
  induction l with
  | nil => intro st _; exact ⟨rfl, rfl⟩
  | cons c rest ih =>
    intro st hpres
    by_cases hc : sweepCondition c
    · -- the chat is synced
      have hmem : ∃ x ∈ st.chats, x.id = c.id := hpres c (by simp)
      have hsome : (getChatById c.id st).isSome := by
        apply List.find?_isSome.mpr
        obtain ⟨x, hx, hxid⟩ := hmem
        exact ⟨x, hx, by simp [hxid]⟩
      obtain ⟨ch, hch⟩ := Option.isSome_iff_exists.mp hsome
      have hloop : syncChatsLoop env now address (c :: rest) st =
          (let r := saveChatToDSN env now c.id (jsOr address c.address) st
           let r2 := syncChatsLoop env now address rest r.1
           (r2.1, r.2.2 ++ r2.2)) := by
        rw [syncChatsLoop]
        rw [if_pos (by simpa [sweepCondition] using hc)]
      have hids := saveChatToDSN_chats_ids env now c.id (jsOr address c.address) st
      have hpres' : ∀ c' ∈ rest, ∃ x ∈
          ((saveChatToDSN env now c.id (jsOr address c.address) st).1).chats,
          x.id = c'.id := by
        intro c' hc'
        obtain ⟨x, hx, hxid⟩ := hpres c' (by simp [hc'])
        have hxmem : x.id ∈ st.chats.map (fun cc => cc.id) :=
          List.mem_map.mpr ⟨x, hx, rfl⟩
        rw [← hids] at hxmem
        obtain ⟨y, hy, hyid⟩ := List.mem_map.mp hxmem
        exact ⟨y, hy, by rw [hyid, hxid]⟩
      obtain ⟨ihatts, ihids⟩ := ih _ hpres'
      have hatts := saveChatToDSN_attempts env now c.id (jsOr address c.address)
        st ch hch
      constructor
      · rw [hloop]
        dsimp only
        rw [List.map_append, hatts, ihatts,
          List.filter_cons_of_pos (by simpa [sweepCondition] using hc)]
        rfl
      · rw [hloop]
        dsimp only
        rw [ihids, hids]
    · -- the chat is skipped
      have hloop : syncChatsLoop env now address (c :: rest) st =
          syncChatsLoop env now address rest st := by
        rw [syncChatsLoop]
        rw [if_neg (by simpa [sweepCondition] using hc)]
      obtain ⟨ihatts, ihids⟩ := ih st (fun c' hc' => hpres c' (by simp [hc']))
      rw [hloop]
      refine ⟨?_, ihids⟩
      rw [ihatts, List.filter_cons_of_neg (by simpa [sweepCondition] using hc)]

/-- C1 amended: the periodic sweep attempts an upload for exactly those
sessions with no (or empty) `cid` **or** with `updatedAt` strictly greater
than `createdAt` — the code never compares the session state against the
recorded CID, so a session whose `cid` already reflects its current state
is still re-uploaded on every sweep as long as `updatedAt > createdAt`
(which holds for any chat saved after creation). -/
theorem syncAllChatsToDSN_attempts_exactly_condition (env : DSNEnv)
    (now : Nat) (address : Option String) (s : Store) :
    (syncAllChatsToDSN env now address s).2.map (fun a => a.chatId) =
      ((getLocalChats s).filter sweepCondition).map (fun c => c.id) := by
  have h := (syncChatsLoop_spec env now address (getLocalChats s) s
    (fun c hc => ⟨c, hc, rfl⟩)).1
  unfold syncAllChatsToDSN
  exact h

def syncStore : Store :=
  { chats := [demoChat]
    cidMap := fun _ => none
    lastSync := none
    timers := fun _ => none }

/-- C1 counterexample: take a store holding the single session `s1` with
`createdAt = 0`, `updatedAt = 1` and no CID, against an archive that
accepts every upload with CID `"cid1"`.  After one sweep the session's
recorded `cid` is `"cid1"` and its state has not changed since that upload
— yet a second sweep attempts to upload `s1` again, refuting the claim
that a session whose `cid` already reflects its current state is not
re-uploaded. -/
theorem sweep_reuploads_unchanged_session :
    Option.map (fun c => c.cid)
      (getChatById "s1" (syncAllChatsToDSN demoEnv 10 none syncStore).1) =
      some (some "cid1") ∧
    (syncAllChatsToDSN demoEnv 20 none
        (syncAllChatsToDSN demoEnv 10 none syncStore).1).2.map
      (fun a => a.chatId) = ["s1"] :=
  ⟨rfl, rfl⟩

/-! ## C4 — debounce coalescing -/

/-- A burst of `saveChat(chat, true)` calls (each given with the wall-clock
time `Date.now()` at which it runs), applied in order. -/
def runBurst (calls : List (ChatSession × Nat)) (s : Store) : Store :=
  calls.foldl (fun st ct => saveChat ct.1 true ct.2 st) s

theorem saveChat_timers (c : ChatSession) (t : Nat) (s : Store) :
    (saveChat c true t s).timers = fun k =>
      if k = c.id then some ⟨c.address⟩ else s.timers k := rfl

theorem saveChat_chats (c : ChatSession) (t : Nat) (s : Store) :
    (saveChat c true t s).chats =
      match s.chats.findIdx? (fun x => decide (x.id = c.id)) with
      | some index => s.chats.set index { c with updatedAt := t }
      | none => s.chats ++ [{ c with updatedAt := t }] := rfl

theorem saveChat_getChatById (c : ChatSession) (t : Nat) (s : Store) :
    getChatById c.id (saveChat c true t s) = some { c with updatedAt := t } := by
  show ((saveChat c true t s).chats).find? (fun x => decide (x.id = c.id)) = _
  rw [saveChat_chats]
  cases hidx : s.chats.findIdx? (fun x => decide (x.id = c.id)) with
  | none =>
    dsimp only
    rw [List.find?_append, find?_eq_none_of_findIdx?_eq_none _ _ hidx]
    simp [List.find?_cons]
  | some i =>
    dsimp only
    exact find?_set_of_findIdx? _ _ (by simp) s.chats i hidx

theorem runBurst_spec (i : String) :
    ∀ (calls : List (ChatSession × Nat)) (hne : calls ≠ [])
      (_hid : ∀ ct ∈ calls, ct.1.id = i) (s : Store),
      getChatById i (runBurst calls s) =
        some { (calls.getLast hne).1 with updatedAt := (calls.getLast hne).2 } ∧
      (runBurst calls s).timers i = some ⟨(calls.getLast hne).1.address⟩ := by
  intro calls
  induction calls with
  | nil => intro hne; exact absurd rfl hne
  | cons ct rest ih =>
    intro hne hid s
    cases rest with
    | nil =>
      have hi : ct.1.id = i := hid ct (by simp)
      subst hi
      constructor
      · exact saveChat_getChatById ct.1 ct.2 s
      · show (saveChat ct.1 true ct.2 s).timers ct.1.id = some ⟨ct.1.address⟩
        rw [saveChat_timers]
        simp
    | cons ct2 rest2 =>
      have hne2 : ct2 :: rest2 ≠ [] := by simp
      obtain ⟨ih1, ih2⟩ := ih hne2 (fun x hx => hid x (by simp [hx]))
        (saveChat ct.1 true ct.2 s)
      exact ⟨ih1, ih2⟩

/-- C4: a burst of `N ≥ 1` `saveChat` calls for one session id within the
debounce window (each call re-arms the single timer for that id) leads, when
the armed timer fires, to exactly one upload attempt, and its payload is the
serialization of the session state written by the last call of the burst;
once that timer has fired, no timer remains armed for the id, so no second
upload attempt occurs. -/
theorem debounce_coalesces (env : DSNEnv) (calls : List (ChatSession × Nat))
    (i : String) (s : Store) (tf tf2 : Nat)
    (hne : calls ≠ []) (hid : ∀ ct ∈ calls, ct.1.id = i) :
    ((fireTimer env tf i (runBurst calls s)).2).map (fun a => (a.chatId, a.data)) =
      [(i, env.stringify
        { (calls.getLast hne).1 with updatedAt := (calls.getLast hne).2 })] ∧
    (fireTimer env tf2 i (fireTimer env tf i (runBurst calls s)).1).2 = [] := by
  obtain ⟨hfind, htim⟩ := runBurst_spec i calls hne hid s
  have hfire : fireTimer env tf i (runBurst calls s) =
      (let s1 : Store :=
        { runBurst calls s with
          timers := fun k => if k = i then none else (runBurst calls s).timers k }
       let r := saveChatToDSN env tf i (calls.getLast hne).1.address s1
       (r.1, r.2.2)) := by
    unfold fireTimer
    rw [htim]
  have hfind1 : getChatById i
      ({ runBurst calls s with
         timers := fun k => if k = i then none else (runBurst calls s).timers k }) =
      some { (calls.getLast hne).1 with updatedAt := (calls.getLast hne).2 } := hfind
  have hatts := saveChatToDSN_attempts env tf i (calls.getLast hne).1.address
    _ _ hfind1
  constructor
  · rw [hfire]
    dsimp only
    rw [hatts]
    rfl
  · rw [hfire]
    dsimp only
    have ht2 : ((saveChatToDSN env tf i (calls.getLast hne).1.address
        { runBurst calls s with
          timers := fun k => if k = i then none else (runBurst calls s).timers k }).1).timers
        i = none := by
      rw [saveChatToDSN_timers]
      simp
    unfold fireTimer
    rw [ht2]

def burstChat1 : ChatSession :=
  { id := "s1", title := "a", messages := [], createdAt := 0, updatedAt := 0
    address := some "0xab" }

def burstChat2 : ChatSession :=
  { id := "s1", title := "b"
    messages := [{ id := "m1", role := .user, content := "hi", timestamp := 1 }]
    createdAt := 0, updatedAt := 0, address := some "0xab" }

def emptyStore : Store :=
  { chats := [], cidMap := fun _ => none, lastSync := none, timers := fun _ => none }

theorem debounce_coalesces_witness :
    ((fireTimer demoEnv 10 "s1"
        (runBurst [(burstChat1, 1), (burstChat2, 2)] emptyStore)).2).map
      (fun a => (a.chatId, a.data)) =
      [("s1", demoEnv.stringify { burstChat2 with updatedAt := 2 })] ∧
    (fireTimer demoEnv 20 "s1"
      (fireTimer demoEnv 10 "s1"
        (runBurst [(burstChat1, 1), (burstChat2, 2)] emptyStore)).1).2 = [] :=
  debounce_coalesces demoEnv [(burstChat1, 1), (burstChat2, 2)] "s1" emptyStore
    10 20 (by simp)
    (by
      intro ct hct
      simp only [List.mem_cons, List.not_mem_nil, or_false] at hct
      rcases hct with rfl | rfl <;> rfl)

/-! ## C9 — `loadMessages` fails open -/

/-- C9: `loadMessages` never throws — every failure path yields the empty
message list: when no data could be resolved (download failed, no CID known,
no local fallback), when decryption of the resolved blob throws (wrong
wallet address or corrupted blob), and when plain parsing throws in the
unencrypted mode.  In particular the no-stored-history and the
undecryptable-history outcomes are the identical value `[]`. -/
theorem loadMessages_fails_open (env : LoadEnv) (cid : Option String)
    (options : StorageOptions) :
    (jsFalsy (loadResolveData env cid options) = true →
        loadMessages env cid options = []) ∧
    (∀ d, loadResolveData env cid options = some d →
        options.encrypted = true → env.decryptMessages d = none →
        loadMessages env cid options = []) ∧
    (∀ d, loadResolveData env cid options = some d →
        options.encrypted = false → env.parse d = none →
        loadMessages env cid options = []) := by
  refine ⟨?_, ?_, ?_⟩
  · intro h
    unfold loadMessages
    dsimp only
    rw [h]
    rfl
  · intro d hd henc hdec
    unfold loadMessages
    dsimp only
    rw [hd]
    by_cases hf : jsFalsy (some d) = true
    · rw [if_pos hf]
    · rw [if_neg hf]
      dsimp only [Option.getD]
      rw [henc, if_pos rfl, hdec]
  · intro d hd henc hparse
    unfold loadMessages
    dsimp only
    rw [hd]
    by_cases hf : jsFalsy (some d) = true
    · rw [if_pos hf]
    · rw [if_neg hf]
      dsimp only [Option.getD]
      rw [henc]
      simp only [Bool.false_eq_true, if_false]
      rw [hparse]

def loadEnvNoData : LoadEnv :=
  { download := fun _ => none, cidMappingFor := none, localItem := none
    decryptMessages := fun _ => some [], parse := fun _ => some [] }

def loadEnvBadBlob : LoadEnv :=
  { download := fun _ => none, cidMappingFor := none, localItem := some "blob"
    decryptMessages := fun _ => none, parse := fun _ => none }

theorem loadMessages_fails_open_witness :
    loadMessages loadEnvNoData none {} = [] ∧
    loadMessages loadEnvBadBlob none {} = [] := by
  constructor
  · exact (loadMessages_fails_open loadEnvNoData none {}).1 rfl
  · exact (loadMessages_fails_open loadEnvBadBlob none {}).2.1 "blob" rfl rfl rfl

end AiMemoryBox
